import Mathlib

/-
  Verification development for the nostr-kv-connect gateway.

  The TypeScript sources are shallowly embedded: JavaScript strings become
  lists of characters, class methods become pure functions, and the mutable
  per-connection / per-router state is threaded explicitly.  Each embedded
  definition carries a comment naming the source function it translates.
-/

namespace NostrKV

/-- JavaScript strings are modelled as lists of characters (JStr). -/
abbrev JStr := List Char

/-- Boolean substring test, modelling JavaScript `String.prototype.includes`:
`strHasInfix p s` holds iff `p` occurs contiguously inside `s`. -/
def strHasInfix (p : JStr) : JStr → Bool
  | [] => p.isEmpty
  | c :: t => p.isPrefixOf (c :: t) || strHasInfix p t

/-- Translation of the literal `escapePatterns` array of
`NamespaceManager.hasEscapeAttempt` (src/namespacing/ns.ts, enhanced version):
directory traversal, NUL, newline, carriage return, wildcards, character
classes, backslash, command substitution, variable expansion, path traversal
variants, and code-execution markers. -/
def escapePatterns : List JStr :=
  [(r"..").toList, [Char.ofNat 0], [Char.ofNat 10], [Char.ofNat 13],
   (r"*").toList, (r"?").toList, (r"[").toList, (r"]").toList,
   (r"\").toList, (r"$((").toList, (r"${").toList,
   (r"../").toList, (r"..\").toList, (r"eval(").toList, (r"exec(").toList]

/-- Translation of the control-character class in the regex
`[\x00-\x08\x0B\x0C\x0E-\x1F\x7F]` of `hasEscapeAttempt`. -/
def isCtrlChar (c : Char) : Bool :=
  c.toNat ≤ 0x08 || c.toNat = 0x0B || c.toNat = 0x0C ||
  (0x0E ≤ c.toNat && c.toNat ≤ 0x1F) || c.toNat = 0x7F

/-- Characters matched by the JavaScript regex class matching whitespace,
used by the whitespace-only test in `hasEscapeAttempt`. -/
def isJsSpace (c : Char) : Bool :=
  c.toNat = 9 || c.toNat = 10 || c.toNat = 11 || c.toNat = 12 || c.toNat = 13 ||
  c.toNat = 32 || c.toNat = 0xA0 || c.toNat = 0x1680 ||
  (0x2000 ≤ c.toNat && c.toNat ≤ 0x200A) || c.toNat = 0x2028 || c.toNat = 0x2029 ||
  c.toNat = 0x202F || c.toNat = 0x205F || c.toNat = 0x3000 || c.toNat = 0xFEFF

/-- Pattern for a run of three or more dots: the regex matches `key` iff
the string of three dots occurs as a contiguous substring. -/
def threeDots : JStr := (r"...").toList

/-- Translation of `NamespaceManager.hasEscapeAttempt` (enhanced version):
a literal pattern occurs in the key, or the key contains a control
character, or the key is whitespace-only, or it has a run of three dots. -/
def hasEscapeAttempt (key : JStr) : Bool :=
  escapePatterns.any (fun p => strHasInfix p key) ||
  (key.any isCtrlChar || key.all isJsSpace || strHasInfix threeDots key)

/-- Translation of `NamespaceManager.hasWrongNamespace`: `indexOf(':')`
returns -1 in JavaScript when no colon occurs; here absence is encoded by
`indexOf` returning `key.length`, so the `colonIndex > 0` test of the
source becomes presence (`< key.length`) plus positivity. -/
def hasWrongNamespace (ns key : JStr) : Bool :=
  let colonIndex := key.indexOf ':'
  colonIndex < key.length && 0 < colonIndex && key.take (colonIndex + 1) != ns

/-- Translation of the `NamespaceManager` constructor normalisation:
append a colon unless the configured namespace already ends in one. -/
def normalizeNs (ns : JStr) : JStr :=
  if ns.getLast? = some ':' then ns else ns ++ [':']

/-- Translation of `NamespaceManager.ensureNamespace` (src/namespacing/ns.ts):
reject empty keys and escape attempts, pass through keys already carrying
the namespace, reject keys with a foreign namespace prefix, auto-prefix the
rest.  The `ns` argument is the (normalised) manager namespace. -/
def ensureNamespace (ns key : JStr) : Option JStr :=
  if key = [] then none
  else if hasEscapeAttempt key then none
  else if ns.isPrefixOf key then some key
  else if hasWrongNamespace ns key then none
  else some (ns ++ key)

/-- Forbidden-pattern list exactly as the specification sentence enumerates
it (C2): two dots, NUL, CR, LF, wildcards, character classes, backslash,
variable expansion, command substitution, and code-execution markers.  The
source's additional patterns for path traversal are subsumed by the
two-dot pattern. -/
def forbiddenPatternsSpec : List JStr :=
  [(r"..").toList, [Char.ofNat 0], [Char.ofNat 10], [Char.ofNat 13],
   (r"*").toList, (r"?").toList, (r"[").toList, (r"]").toList,
   (r"\").toList, (r"$((").toList, (r"${").toList,
   (r"eval(").toList, (r"exec(").toList]

/-- Specification-side reading of step 2 of the namespace-guard algorithm
(the order of the disjuncts is immaterial): the key contains a forbidden
pattern, a control character, is whitespace-only, or has a run of three or
more dots. -/
def containsForbiddenSpec (key : JStr) : Bool :=
  forbiddenPatternsSpec.any (fun p => strHasInfix p key) ||
  (key.any isCtrlChar || key.all isJsSpace || strHasInfix threeDots key)

/-- Specification-side five-step namespace guard, following the claim's
wording: reject empty keys, reject forbidden patterns, pass through keys
starting with the namespace, reject keys whose (first) colon sits at a
position greater than zero with a prefix differing from the namespace,
and otherwise auto-prefix. -/
def ensureNamespaceSpec (ns key : JStr) : Option JStr :=
  if key = [] then none
  else if containsForbiddenSpec key then none
  else if ns.isPrefixOf key then some key
  else if (key.indexOf ':') < key.length && 0 < key.indexOf ':' &&
          key.take (key.indexOf ':' + 1) != ns then none
  else some (ns ++ key)

/-- Base64 alphabet in index order, as used by Node's `Buffer` codec. -/
def b64Alphabet : JStr :=
  ((r"ABCDEFGHIJKLMNOPQRSTUVWXYZabcdefghijklmnopqrstuvwxyz0123456789+/").toList)

/-- Sextet value of a character under Node's decoding table: the standard
alphabet in index order, plus the URL-safe characters `-` and `_`, which
Node's base64 decoding also accepts as 62 and 63; `none` for everything
else (including padding, handled separately by the scanner). -/
def b64Val (c : Char) : Option Nat :=
  if c = '-' then some 62
  else if c = '_' then some 63
  else
    let i := b64Alphabet.indexOf c
    if i < 64 then some i else none

/-- Character for a sextet value (used by the canonical encoder). -/
def b64Char (n : Nat) : Char := b64Alphabet.getD n '='

/-- Reassembly of bytes from a list of sextets: each complete group of four
sextets yields three bytes, a trailing pair yields one byte, a trailing
triple yields two, and a single trailing sextet is dropped. -/
def decodeSextets : List Nat → List Nat
  | a :: b :: c :: d :: rest =>
      (a * 4 + b / 16) :: ((b % 16) * 16 + c / 4) :: ((c % 4) * 64 + d) ::
        decodeSextets rest
  | [a, b] => [a * 4 + b / 16]
  | [a, b, c] => [a * 4 + b / 16, (b % 16) * 16 + c / 4]
  | _ => []

/-- Sextet stream Node's scanner extracts from a string: characters with
no table value are silently skipped, and the first `=` stops decoding
altogether — everything after it is ignored. -/
def b64Sextets : JStr → List Nat
  | [] => []
  | c :: t =>
    if c = '=' then []
    else
      match b64Val c with
      | some v => v :: b64Sextets t
      | none => b64Sextets t

/-- Model of `Buffer.from(s, 'base64')`: the decoder never throws — the
scanned sextet stream is reassembled into bytes, whatever the input. -/
def decodeB64 (s : JStr) : List Nat := decodeSextets (b64Sextets s)

/-- Canonical base64 encoding of a byte list with `=` padding, modelling
`buffer.toString('base64')`. -/
def encodeGroups : List Nat → JStr
  | b1 :: b2 :: b3 :: rest =>
      b64Char (b1 / 4) :: b64Char ((b1 % 4) * 16 + b2 / 16) ::
      b64Char ((b2 % 16) * 4 + b3 / 64) :: b64Char (b3 % 64) :: encodeGroups rest
  | [b1, b2] => [b64Char (b1 / 4), b64Char ((b1 % 4) * 16 + b2 / 16),
                 b64Char ((b2 % 16) * 4), '=']
  | [b1] => [b64Char (b1 / 4), b64Char ((b1 % 4) * 16), '=', '=']
  | [] => []

/-- Model of `Buffer.from(bytes).toString('base64')`. -/
def encodeB64 (bs : List Nat) : JStr := encodeGroups bs

/-- View of a byte list as the JavaScript string a client of the backend
reads back; exact for ASCII payloads (each byte below 128 is one
character), which is the fidelity domain of this embedding. -/
def bytesToStr (bs : List Nat) : JStr := bs.map Char.ofNat

/-- Byte list of a string, modelling `Buffer.from(str)` on ASCII strings. -/
def strBytes (s : JStr) : List Nat := s.map Char.toNat

/-- Translation of `KVAdapter.isBase64` (src/redis/kv.ts): a string is
taken for base64 iff decoding and re-encoding it reproduces it. -/
def isBase64Str (s : JStr) : Bool := encodeB64 (decodeB64 s) == s

/-- Backend store: association list from full key to stored raw bytes and
the optional TTL; the first binding for a key is the current one. -/
abbrev Store := List (JStr × List Nat × Option Int)

/-- Current binding of a key in the store. -/
def storeFind (st : Store) (key : JStr) : Option (List Nat × Option Int) :=
  (st.find? (fun e => e.1 == key)).map (fun e => e.2)

/-- Conversion applied by `KVAdapter.get` to a stored value: return it
unchanged when it already reads as canonical base64, else encode it. -/
def kvGetVal (bs : List Nat) : JStr :=
  let s := bytesToStr bs
  if isBase64Str s then s else encodeB64 bs

/-- Translation of `KVAdapter.get`. -/
def kvGet (st : Store) (key : JStr) : Option JStr :=
  (storeFind st key).map (fun e => kvGetVal e.1)

/-- Translation of `KVAdapter.set`: the base64 value is decoded and the raw
bytes stored; the TTL is attached when truthy and positive. -/
def kvSet (st : Store) (key : JStr) (value : JStr) (ttl : Option Int) : Store :=
  (key, decodeB64 value,
    match ttl with
    | some t => if 0 < t then some t else none
    | none => none) :: st.filter (fun e => e.1 != key)

/-- Translation of `KVAdapter.del`: the number of removed keys is 0 or 1. -/
def kvDel (st : Store) (key : JStr) : Store × Nat :=
  if (storeFind st key).isSome then (st.filter (fun e => e.1 != key), 1)
  else (st, 0)

/-- Translation of `KVAdapter.exists`. -/
def kvHasKey (st : Store) (key : JStr) : Bool := (storeFind st key).isSome

/-- Translation of `KVAdapter.mget`: the per-value conversion of `get`
applied positionally. -/
def kvMget (st : Store) (keys : List JStr) : List (Option JStr) :=
  keys.map (kvGet st)

/-- Translation of `KVAdapter.expire`: true iff the key exists. -/
def kvExpire (st : Store) (key : JStr) (t : Int) : Store × Bool :=
  match storeFind st key with
  | none => (st, false)
  | some e => ((key, e.1, some t) :: st.filter (fun x => x.1 != key), true)

/-- Translation of `KVAdapter.ttl` under Redis semantics: -2 for a missing
key, -1 for a key without expiry, else the remaining TTL. -/
def kvTtl (st : Store) (key : JStr) : Int :=
  match storeFind st key with
  | none => -2
  | some e => match e.2 with
    | none => -1
    | some t => t

/-- Translation of `Validator.validateKey` (src/limits/validate.ts):
nonempty, within the length limit, and free of NUL bytes. -/
def validateKey (key : JStr) (maxLength : Nat) : Bool :=
  if key.isEmpty then false
  else if maxLength < key.length then false
  else if key.contains (Char.ofNat 0) then false
  else true

/-- Translation of `Validator.validateValue`: the empty value passes, and
otherwise only the decoded byte length is checked against the limit — the
lenient decoder never fails, so malformedness alone is never rejected. -/
def validateValue (value : JStr) (maxSize : Nat) : Bool :=
  if value.isEmpty then true
  else if maxSize < (decodeB64 value).length then false
  else true

/-- Translation of `Validator.validateMgetCount`. -/
def validateMgetCount (count maxCount : Nat) : Bool :=
  if count = 0 then false
  else if maxCount < count then false
  else true

/-- Per-connection limit vector (src/types.ts `ClientConnection.limits`). -/
structure Limits where
  mps : Nat
  bps : Nat
  maxKey : Nat
  maxVal : Nat
  mgetMax : Nat
deriving DecidableEq, Repr

/-- Client connection (src/types.ts `ClientConnection`); the namespace field
is `nspace` because `namespace` is reserved in Lean.  The mutable
`rateLimitState` lives in `Sys` and is threaded explicitly. -/
structure Conn where
  pubkey : JStr
  nspace : JStr
  allowedMethods : List JStr
  limits : Limits
deriving DecidableEq, Repr

/-- Request parameter record: the union of the fields the eight method
schemas (src/protocol/schema.ts) can require; absent fields are `none`. -/
structure Params where
  key : Option JStr
  value : Option JStr
  ttl : Option Int
  keys : Option (List JStr)
deriving DecidableEq, Repr

/-- Parameter record with every field absent. -/
def Params.empty : Params := ⟨none, none, none, none⟩

/-- Decrypted request (src/types.ts `KVRequest`). -/
structure KVRequest where
  method : JStr
  params : Params
  id : JStr
deriving DecidableEq, Repr

/-- Closed error-code set (src/types.ts `ErrorCodes`). -/
inductive ECode
  | UNAUTHORIZED
  | RESTRICTED
  | RATE_LIMITED
  | PAYLOAD_TOO_LARGE
  | INVALID_KEY
  | INVALID_VALUE
  | NOT_IMPLEMENTED
  | INTERNAL
deriving DecidableEq, Repr

/-- Success result payloads of the eight methods. -/
inductive RVal
  | info (methods : List JStr) (ns : JStr) (limits : Limits) (nip44 nip04 : Bool)
  | val (v : Option JStr)
  | okFlag (b : Bool)
  | deleted (n : Nat)
  | hasKey (b : Bool)
  | vals (vs : List (Option JStr))
  | ttlVal (t : Int)
deriving DecidableEq, Repr

/-- Error object of a response. -/
structure ErrObj where
  code : ECode
  message : JStr
deriving DecidableEq, Repr

/-- Response (src/types.ts `KVResponse`): exactly one of `result`/`error`
is set by the router. -/
structure KVResponse where
  result : Option RVal
  error : Option ErrObj
  id : JStr
deriving DecidableEq, Repr

/-- Method-name literals dispatched on by the router. -/
def mGetInfo : JStr := (r"get_info").toList

def mGet : JStr := (r"get").toList

def mSet : JStr := (r"set").toList

def mDel : JStr := (r"del").toList

def mExists : JStr := (r"exists").toList

def mMget : JStr := (r"mget").toList

def mExpire : JStr := (r"expire").toList

def mTtl : JStr := (r"ttl").toList

/-- Error message of the allowlist rejection. -/
def msgNotAllowed (m : JStr) : JStr :=
  (r"Method ").toList ++ m ++ (r" not allowed").toList

/-- Error message of the rate-limit rejection. -/
def msgRate : JStr := (r"Rate limit exceeded").toList

/-- Error message of the byte-budget rejection. -/
def msgBudget : JStr := (r"Byte budget exceeded").toList

/-- Error message of the key-validation rejection. -/
def msgBadKey : JStr := (r"Key too long or invalid").toList

/-- Error message of the value-validation rejection. -/
def msgBadValue : JStr := (r"Value too large").toList

/-- Error message of the namespace rejection. -/
def msgOutsideNs : JStr := (r"Key outside namespace").toList

/-- Error message of the mget count rejection. -/
def msgTooMany : JStr := (r"Too many keys in mget").toList

/-- Per-key mget message for an overlong key. -/
def msgKeyTooLong (k : JStr) : JStr := (r"Key too long: ").toList ++ k

/-- Per-key mget message for a foreign-namespace key. -/
def msgOutsideNsKey (k : JStr) : JStr := (r"Key outside namespace: ").toList ++ k

/-- Error message of the default dispatch branch. -/
def msgNotImpl (m : JStr) : JStr :=
  (r"Method ").toList ++ m ++ (r" not implemented").toList

/-- Internal-error messages of the per-method catch blocks. -/
def msgFailGet : JStr := (r"Failed to get value").toList

/-- Internal-error message of the set handler. -/
def msgFailSet : JStr := (r"Failed to set value").toList

/-- Internal-error message of the del handler. -/
def msgFailDel : JStr := (r"Failed to delete key").toList

/-- Internal-error message of the exists handler. -/
def msgFailExists : JStr := (r"Failed to check existence").toList

/-- Internal-error message of the mget handler. -/
def msgFailMget : JStr := (r"Failed to get multiple values").toList

/-- Internal-error message of the expire handler. -/
def msgFailExpire : JStr := (r"Failed to set expiration").toList

/-- Internal-error message of the ttl handler. -/
def msgFailTtl : JStr := (r"Failed to get TTL").toList

/-- Translation of `ProtocolRouter.errorResponse`. -/
def errorResponse (id : JStr) (code : ECode) (message : JStr) : KVResponse :=
  ⟨none, some ⟨code, message⟩, id⟩

/-- Translation of `ProtocolRouter.hashKey`: empty keys hash to the empty
string, others to the first eight characters of their base64. -/
def hashKey (key : JStr) : JStr :=
  if key.isEmpty then [] else (encodeB64 (strBytes key)).take 8

/-- Translation of `AuditLogger.redactPubkey`: first four and last four
characters around an ellipsis, or stars when too short. -/
def redactPubkey (pk : JStr) : JStr :=
  if pk.length ≤ 8 then (r"****").toList
  else pk.take 4 ++ (r"...").toList ++ pk.drop (pk.length - 4)

/-- Audit record (src/audit/audit.ts `AuditEntry`); `statusOk` stands for
the `success`/`error` status string. -/
structure AuditRec where
  method : JStr
  keyHash : JStr
  valueSize : Nat
  statusOk : Bool
  errorCode : Option ECode
  latency : Nat
  clientPubkey : JStr
  timestamp : Nat
deriving DecidableEq, Repr

/-- Translation of `AuditLogger.log`: redact the pubkey, stamp the time,
push at the head and trim the list to 10000 entries. -/
def auditLog (log : List AuditRec) (e : AuditRec) (now : Nat) : List AuditRec :=
  ({ e with clientPubkey := redactPubkey e.clientPubkey, timestamp := now } :: log).take 10000

/-- Audit entry built by `ProtocolRouter.handleRequest` after dispatch; in
this timeless embedding the request is processed at a single instant, so
the measured latency is zero. -/
def mkAuditRec (conn : Conn) (req : KVRequest) (response : KVResponse) : AuditRec :=
  { method := req.method,
    keyHash := hashKey (req.params.key.getD []),
    valueSize := (req.params.value.getD []).length,
    statusOk := response.error.isNone,
    errorCode := response.error.map (fun e => e.code),
    latency := 0,
    clientPubkey := conn.pubkey,
    timestamp := 0 }

/-- Idempotency cache contents: cache key, cached response, insert time.
JavaScript `Map` keys are unique; the first binding is the current one. -/
abbrev Cache := List (JStr × KVResponse × Nat)

/-- Translation of `IdempotencyCache.getCacheKey`. -/
def cacheKeyOf (clientPubkey requestId : JStr) : JStr :=
  clientPubkey ++ [':'] ++ requestId

/-- Translation of `IdempotencyCache.get` with its delete-on-stale-miss
eviction: returns the cached response when fresher than the 60 s window,
and the possibly updated cache. -/
def cacheGet (cache : Cache) (clientPubkey requestId : JStr) (now : Nat) :
    Option KVResponse × Cache :=
  let key := cacheKeyOf clientPubkey requestId
  match cache.find? (fun e => e.1 == key) with
  | none => (none, cache)
  | some e =>
      if 60000 < now - e.2.2 then (none, cache.filter (fun x => x.1 != key))
      else (some e.2.1, cache)

/-- Translation of `IdempotencyCache.set` (`Map.set` replaces the binding). -/
def cachePut (cache : Cache) (clientPubkey requestId : JStr) (resp : KVResponse)
    (now : Nat) : Cache :=
  (cacheKeyOf clientPubkey requestId, resp, now) ::
    cache.filter (fun x => x.1 != cacheKeyOf clientPubkey requestId)

/-- Mutable per-connection window state (src/types.ts `rateLimitState`):
request timestamps and `(timestamp, bytes)` pairs. -/
structure RateState where
  requests : List Nat
  bytes : List (Nat × Nat)
deriving DecidableEq, Repr

/-- Translation of `RateLimiter.checkLimit` (sliding 60 s window): purge,
reject when the purged count reaches `mps`, else append `now`. -/
def checkLimit (mps : Nat) (now : Nat) (rs : RateState) : Bool × RateState :=
  let purged := rs.requests.filter (fun t => now - t < 60000)
  if mps ≤ purged.length then (false, { rs with requests := purged })
  else (true, { rs with requests := purged ++ [now] })

/-- Translation of `BudgetManager.checkBudget`: purge the byte records,
sum them, and accept iff the sum plus the incoming size fits in `bps`.
The check records nothing. -/
def checkBudget (bps : Nat) (requestBytes : Nat) (now : Nat) (rs : RateState) :
    Bool × RateState :=
  let purged := rs.bytes.filter (fun r => now - r.1 < 60000)
  let currentUsage := (purged.map (fun r => r.2)).sum
  if bps < currentUsage + requestBytes then (false, { rs with bytes := purged })
  else (true, { rs with bytes := purged })

/-- Translation of `BudgetManager.consumeBudget`: append a byte record
without purging or checking. -/
def consumeBudget (rs : RateState) (bytes now : Nat) : RateState :=
  { rs with bytes := rs.bytes ++ [(now, bytes)] }

/-- Combined router-and-backend state threaded through `handleRequest`:
the connection's rate window, the idempotency cache, the backend store and
the audit list. -/
structure Sys where
  rs : RateState
  cache : Cache
  store : Store
  audit : List AuditRec
deriving DecidableEq, Repr

/-- Backend operations issued by the handlers, recording the fully
qualified keys that reach the store. -/
inductive KVOp
  | get (key : JStr)
  | set (key : JStr) (value : JStr) (ttl : Option Int)
  | del (key : JStr)
  | hasKey (key : JStr)
  | mget (keys : List JStr)
  | expire (key : JStr) (ttl : Int)
  | ttl (key : JStr)
deriving DecidableEq, Repr

/-- Keys an operation carries to the backend. -/
def KVOp.opKeys : KVOp → List JStr
  | .get k => [k]
  | .set k _ _ => [k]
  | .del k => [k]
  | .hasKey k => [k]
  | .mget ks => ks
  | .expire k _ => [k]
  | .ttl k => [k]

/-- Result of one routed request: the response, the successor state, and
the backend operations performed. -/
structure StepOut where
  resp : KVResponse
  sys : Sys
  ops : List KVOp
deriving DecidableEq, Repr

/-- Translation of `ProtocolRouter.handleGetInfo`. -/
def handleGetInfo (nip44 nip04 : Bool) (conn : Conn) (req : KVRequest) : KVResponse :=
  ⟨some (.info conn.allowedMethods conn.nspace conn.limits nip44 nip04), none, req.id⟩

/-- Translation of `ProtocolRouter.handleGet`: schema parse (a missing key
makes zod throw, caught as INTERNAL), key validation, namespace
resolution, then the backend read. -/
def handleGet (conn : Conn) (req : KVRequest) (st : Store) :
    KVResponse × Store × List KVOp :=
  match req.params.key with
  | none => (errorResponse req.id .INTERNAL msgFailGet, st, [])
  | some key =>
    if !validateKey key conn.limits.maxKey then
      (errorResponse req.id .INVALID_KEY msgBadKey, st, [])
    else match ensureNamespace (normalizeNs conn.nspace) key with
      | none => (errorResponse req.id .RESTRICTED msgOutsideNs, st, [])
      | some fullKey => (⟨some (.val (kvGet st fullKey)), none, req.id⟩, st, [.get fullKey])

/-- Translation of `ProtocolRouter.handleSet`: schema parse (missing key or
value, or a non-positive ttl, make zod throw, caught as INTERNAL), key and
value validation, namespace resolution, then the backend write. -/
def handleSet (conn : Conn) (req : KVRequest) (st : Store) :
    KVResponse × Store × List KVOp :=
  match req.params.key, req.params.value with
  | some key, some value =>
    if !(match req.params.ttl with
         | none => true
         | some t => 0 < t) then
      (errorResponse req.id .INTERNAL msgFailSet, st, [])
    else if !validateKey key conn.limits.maxKey then
      (errorResponse req.id .INVALID_KEY msgBadKey, st, [])
    else if !validateValue value conn.limits.maxVal then
      (errorResponse req.id .INVALID_VALUE msgBadValue, st, [])
    else match ensureNamespace (normalizeNs conn.nspace) key with
      | none => (errorResponse req.id .RESTRICTED msgOutsideNs, st, [])
      | some fullKey =>
        (⟨some (.okFlag true), none, req.id⟩, kvSet st fullKey value req.params.ttl,
         [.set fullKey value req.params.ttl])
  | _, _ => (errorResponse req.id .INTERNAL msgFailSet, st, [])

/-- Translation of `ProtocolRouter.handleDel`. -/
def handleDel (conn : Conn) (req : KVRequest) (st : Store) :
    KVResponse × Store × List KVOp :=
  match req.params.key with
  | none => (errorResponse req.id .INTERNAL msgFailDel, st, [])
  | some key =>
    if !validateKey key conn.limits.maxKey then
      (errorResponse req.id .INVALID_KEY msgBadKey, st, [])
    else match ensureNamespace (normalizeNs conn.nspace) key with
      | none => (errorResponse req.id .RESTRICTED msgOutsideNs, st, [])
      | some fullKey =>
        let r := kvDel st fullKey
        (⟨some (.deleted r.2), none, req.id⟩, r.1, [.del fullKey])

/-- Translation of `ProtocolRouter.handleExists`. -/
def handleExists (conn : Conn) (req : KVRequest) (st : Store) :
    KVResponse × Store × List KVOp :=
  match req.params.key with
  | none => (errorResponse req.id .INTERNAL msgFailExists, st, [])
  | some key =>
    if !validateKey key conn.limits.maxKey then
      (errorResponse req.id .INVALID_KEY msgBadKey, st, [])
    else match ensureNamespace (normalizeNs conn.nspace) key with
      | none => (errorResponse req.id .RESTRICTED msgOutsideNs, st, [])
      | some fullKey => (⟨some (.hasKey (kvHasKey st fullKey)), none, req.id⟩, st, [.hasKey fullKey])

/-- Translation of the per-key loop of `ProtocolRouter.handleMget`: first
failing key aborts with its error code and message, otherwise the fully
qualified keys are accumulated in order. -/
def resolveKeys (ns : JStr) (maxKey : Nat) : List JStr → Except (ECode × JStr) (List JStr)
  | [] => .ok []
  | k :: ks =>
    if !validateKey k maxKey then .error (.INVALID_KEY, msgKeyTooLong k)
    else match ensureNamespace ns k with
      | none => .error (.RESTRICTED, msgOutsideNsKey k)
      | some fk =>
        match resolveKeys ns maxKey ks with
        | .error e => .error e
        | .ok fks => .ok (fk :: fks)

/-- Translation of `ProtocolRouter.handleMget`: schema parse (missing or
empty key list makes zod throw, caught as INTERNAL), count validation,
per-key resolution, then one backend mget. -/
def handleMget (conn : Conn) (req : KVRequest) (st : Store) :
    KVResponse × Store × List KVOp :=
  match req.params.keys with
  | none => (errorResponse req.id .INTERNAL msgFailMget, st, [])
  | some keys =>
    if keys.isEmpty then (errorResponse req.id .INTERNAL msgFailMget, st, [])
    else if !validateMgetCount keys.length conn.limits.mgetMax then
      (errorResponse req.id .PAYLOAD_TOO_LARGE msgTooMany, st, [])
    else match resolveKeys (normalizeNs conn.nspace) conn.limits.maxKey keys with
      | .error e => (errorResponse req.id e.1 e.2, st, [])
      | .ok fullKeys =>
        (⟨some (.vals (kvMget st fullKeys)), none, req.id⟩, st, [.mget fullKeys])

/-- Translation of `ProtocolRouter.handleExpire`: the ttl parameter is
required and positive by schema. -/
def handleExpire (conn : Conn) (req : KVRequest) (st : Store) :
    KVResponse × Store × List KVOp :=
  match req.params.key, req.params.ttl with
  | some key, some t =>
    if t ≤ 0 then (errorResponse req.id .INTERNAL msgFailExpire, st, [])
    else if !validateKey key conn.limits.maxKey then
      (errorResponse req.id .INVALID_KEY msgBadKey, st, [])
    else match ensureNamespace (normalizeNs conn.nspace) key with
      | none => (errorResponse req.id .RESTRICTED msgOutsideNs, st, [])
      | some fullKey =>
        let r := kvExpire st fullKey t
        (⟨some (.okFlag r.2), none, req.id⟩, r.1, [.expire fullKey t])
  | _, _ => (errorResponse req.id .INTERNAL msgFailExpire, st, [])

/-- Translation of `ProtocolRouter.handleTtl`. -/
def handleTtl (conn : Conn) (req : KVRequest) (st : Store) :
    KVResponse × Store × List KVOp :=
  match req.params.key with
  | none => (errorResponse req.id .INTERNAL msgFailTtl, st, [])
  | some key =>
    if !validateKey key conn.limits.maxKey then
      (errorResponse req.id .INVALID_KEY msgBadKey, st, [])
    else match ensureNamespace (normalizeNs conn.nspace) key with
      | none => (errorResponse req.id .RESTRICTED msgOutsideNs, st, [])
      | some fullKey => (⟨some (.ttlVal (kvTtl st fullKey)), none, req.id⟩, st, [.ttl fullKey])

/-- Translation of the dispatch switch of `ProtocolRouter.handleRequest`,
including the NOT_IMPLEMENTED default branch. -/
def dispatchMethod (nip44 nip04 : Bool) (conn : Conn) (req : KVRequest) (st : Store) :
    KVResponse × Store × List KVOp :=
  if req.method == mGetInfo then (handleGetInfo nip44 nip04 conn req, st, [])
  else if req.method == mGet then handleGet conn req st
  else if req.method == mSet then handleSet conn req st
  else if req.method == mDel then handleDel conn req st
  else if req.method == mExists then handleExists conn req st
  else if req.method == mMget then handleMget conn req st
  else if req.method == mExpire then handleExpire conn req st
  else if req.method == mTtl then handleTtl conn req st
  else (errorResponse req.id .NOT_IMPLEMENTED (msgNotImpl req.method), st, [])

/-- Translation of `ProtocolRouter.handleRequest` (src/protocol/router.ts):
idempotency lookup, method allowlist, rate limit, byte budget, dispatch,
response caching, response-byte consumption, audit.  `reqSize` stands for
the JSON-encoded request length the router measures; `respSize` for its
response-serialisation length function. -/
def handleRequest (nip44 nip04 : Bool) (respSize : KVResponse → Nat) (conn : Conn)
    (req : KVRequest) (reqSize : Nat) (now : Nat) (s : Sys) : StepOut :=
  let lk := cacheGet s.cache conn.pubkey req.id now
  let s1 : Sys := { s with cache := lk.2 }
  match lk.1 with
  | some cached => ⟨cached, s1, []⟩
  | none =>
    if !(conn.allowedMethods.contains req.method) then
      ⟨errorResponse req.id .RESTRICTED (msgNotAllowed req.method), s1, []⟩
    else
      let cl := checkLimit conn.limits.mps now s1.rs
      if !cl.1 then
        ⟨errorResponse req.id .RATE_LIMITED msgRate, { s1 with rs := cl.2 }, []⟩
      else
        let cb := checkBudget conn.limits.bps reqSize now cl.2
        if !cb.1 then
          ⟨errorResponse req.id .RATE_LIMITED msgBudget, { s1 with rs := cb.2 }, []⟩
        else
          let d := dispatchMethod nip44 nip04 conn req s1.store
          let response := d.1
          ⟨response,
           { rs := consumeBudget cb.2 (respSize response) now,
             cache := cachePut s1.cache conn.pubkey req.id response now,
             store := d.2.1,
             audit := auditLog s1.audit (mkAuditRec conn req response) now },
           d.2.2⟩

/-- Guard conjunction deciding whether a request reaches the dispatch
switch of `handleRequest`: idempotency miss, allowlisted method, rate
check passed, byte-budget check passed. -/
def reachesDispatch (conn : Conn) (req : KVRequest) (reqSize now : Nat) (s : Sys) : Bool :=
  (cacheGet s.cache conn.pubkey req.id now).1.isNone &&
  conn.allowedMethods.contains req.method &&
  (checkLimit conn.limits.mps now s.rs).1 &&
  (checkBudget conn.limits.bps reqSize now (checkLimit conn.limits.mps now s.rs).2).1

/-- Inbound envelope event as it reaches `NostrKVServer.handleIncomingEvent`
(src/server.ts).  The encrypted `content` is not embeddable, so
`contentPlain` carries the combined outcome of decryption and JSON
parsing: `none` when either fails, otherwise the decrypted request. -/
structure NEvent where
  kind : Nat
  pubkey : JStr
  created_at : Int
  hasSig : Bool
  contentPlain : Option KVRequest
deriving DecidableEq, Repr

/-- Translation of `NostrKVServer.handleIncomingEvent`: drop events with a
missing signature, a failing decryption or unparseable JSON, and route
everything else; `none` means no response event is published.  The
function receives the server clock `now` only to pass it to the router —
the source consults no freshness bound on `created_at`. -/
def handleIncomingEvent (nip44 nip04 : Bool) (respSize : KVResponse → Nat)
    (conn : Conn) (ev : NEvent) (reqSize : Nat) (now : Nat) (s : Sys) :
    Option StepOut :=
  if !ev.hasSig then none
  else match ev.contentPlain with
    | none => none
    | some req => some (handleRequest nip44 nip04 respSize conn req reqSize now s)

/-- State with empty windows, cache, store and audit list, as for a fresh
connection on a fresh router. -/
def Sys.empty : Sys := ⟨⟨[], []⟩, [], [], []⟩

/-- Sample connection fixture used by concrete witnesses. -/
def connA : Conn :=
  ⟨(r"f00dbabe").toList, (r"app:").toList,
   [mGetInfo, mGet, mSet, mDel, mExists, mMget, mExpire, mTtl],
   ⟨60, 1048576, 256, 65536, 16⟩⟩

/-- Response-size function that charges a flat ten bytes, standing for a
serialisation in a concrete counterexample run. -/
def respSizeTen : KVResponse → Nat := fun _ => 10

/-- Response-size function charging zero bytes (so the byte budget never
interferes in rate-limit scenarios). -/
def respSizeZero : KVResponse → Nat := fun _ => 0

/-- Connection whose allowlist contains only `get`: used to exercise the
RESTRICTED early-return path. -/
def connR : Conn :=
  ⟨(r"c1pubkey1").toList, (r"app:").toList, [mGet], ⟨60, 1000000, 256, 65536, 16⟩⟩

/-- First request of the duplicate-id scenario: a `set` (not allowed for
`connR`) under the id `dup`. -/
def reqDupSet : KVRequest :=
  ⟨mSet, ⟨some ((r"a").toList), some ((r"eA==").toList), none, none⟩, (r"dup").toList⟩

/-- Second request of the duplicate-id scenario: a `get` (allowed) under
the same id `dup` from the same client. -/
def reqDupGet : KVRequest :=
  ⟨mGet, ⟨some ((r"a").toList), none, none, none⟩, (r"dup").toList⟩

/-- Outcome of the first duplicate-id request: rejected RESTRICTED at the
allowlist, before the cache insert and the audit append. -/
def outDup1 : StepOut := handleRequest true true respSizeTen connR reqDupSet 10 1000 Sys.empty

/-- Outcome of the second duplicate-id request, processed on the state the
first one left behind and within the idempotency window. -/
def outDup2 : StepOut := handleRequest true true respSizeTen connR reqDupGet 10 1000 outDup1.sys

/-- Connection with a ten-byte `bps` budget for the byte-accounting
counterexample. -/
def connB : Conn :=
  ⟨(r"c2pubkey2").toList, (r"app:").toList,
   [mGetInfo, mGet, mSet, mDel, mExists, mMget, mExpire, mTtl],
   ⟨60, 10, 256, 65536, 16⟩⟩

/-- Encoded size charged for the budget-counterexample request. -/
def reqSizeB : Nat := 10

/-- Budget-counterexample request: a plain `get_info` with id `b1`. -/
def reqB : KVRequest := ⟨mGetInfo, Params.empty, (r"b1").toList⟩

/-- Outcome of the budget counterexample: the request is accepted although
its own size plus its response size exceeds `bps`. -/
def outB : StepOut := handleRequest true true respSizeTen connB reqB reqSizeB 0 Sys.empty

/-- Well-formed request carried by the freshness counterexample events. -/
def reqC6 : KVRequest := ⟨mGetInfo, Params.empty, (r"f1").toList⟩

/-- Signed, decryptable event whose `created_at` lies far more than 60
seconds beyond the server clock (the run below uses second 1000). -/
def evFuture : NEvent := ⟨23194, connA.pubkey, 101000, true, some reqC6⟩

/-- Signed, decryptable event whose age far exceeds five minutes at server
second 1000. -/
def evOld : NEvent := ⟨23194, connA.pubkey, 5, true, some reqC6⟩

/-- Key under which the round-trip counterexample stores its value. -/
def kC7 : JStr := (r"app:x").toList

/-- Round-trip counterexample value: canonical base64 that decodes to the
ASCII bytes of the string of four characters `QQ==`. -/
def vC7 : JStr := (r"UVE9PQ==").toList

/-- Distinct-id request family for the rate-limit scenario: the i-th
request is a `get_info` whose id is i repetitions of `a`. -/
def reqSeq (i : Nat) : KVRequest := ⟨mGetInfo, Params.empty, List.replicate i 'a'⟩

/-- State after the first k requests of the rate-limit scenario, all
processed at the same instant `now` with zero byte sizes. -/
def runSeq (nip44 nip04 : Bool) (conn : Conn) (now : Nat) : Nat → Sys
  | 0 => Sys.empty
  | k + 1 =>
    (handleRequest nip44 nip04 respSizeZero conn (reqSeq k) 0 now
      (runSeq nip44 nip04 conn now k)).sys

/-- Response to the k-th request of the rate-limit scenario. -/
def respAt (nip44 nip04 : Bool) (conn : Conn) (now : Nat) (k : Nat) : KVResponse :=
  (handleRequest nip44 nip04 respSizeZero conn (reqSeq k) 0 now
    (runSeq nip44 nip04 conn now k)).resp

/-- Set request with an escape-attempt key, rejected RESTRICTED after the
rate-limit stage already counted it. -/
def reqBadKey : KVRequest :=
  ⟨mSet, ⟨some ((r"../e").toList), some ((r"eA==").toList), none, none⟩, (r"w1").toList⟩

/-- Connection with `mps = 2`, for the rate-limit boundary witness. -/
def connW : Conn :=
  ⟨(r"c4pubkey4").toList, (r"app:").toList,
   [mGetInfo, mGet, mSet, mDel, mExists, mMget, mExpire, mTtl],
   ⟨2, 1000000, 256, 65536, 16⟩⟩

/-- Connection with a two-byte decoded-value bound, for the value-size
witness. -/
def connV : Conn :=
  ⟨(r"c3pubkey3").toList, (r"app:").toList,
   [mGetInfo, mGet, mSet, mDel, mExists, mMget, mExpire, mTtl],
   ⟨60, 1000000, 256, 2, 16⟩⟩

theorem strHasInfix_iff (p s : JStr) : strHasInfix p s = true ↔ p <:+: s := by
  induction s with
  | nil =>
    simp [strHasInfix, List.isEmpty_iff]
  | cons c t ih =>
    simp [strHasInfix, Bool.or_eq_true, List.isPrefixOf_iff_prefix, ih,
      List.infix_cons_iff]

theorem strHasInfix_mono {p q s : JStr} (hpq : p <:+: q)
    (h : strHasInfix q s = true) : strHasInfix p s = true := by
  rw [strHasInfix_iff] at h ⊢
  exact hpq.trans h

theorem hasEscapeAttempt_eq_spec (key : JStr) :
    hasEscapeAttempt key = containsForbiddenSpec key := by
  by_cases h2 : strHasInfix ['.', '.'] key = true
  · simp [hasEscapeAttempt, containsForbiddenSpec, escapePatterns,
      forbiddenPatternsSpec, h2]
  · have e1 : strHasInfix ['.', '.', '/'] key = false := by
      by_contra he
      exact h2 (strHasInfix_mono ⟨[], ['/'], rfl⟩ (by simpa using he))
    have e2 : strHasInfix ['.', '.', '\\'] key = false := by
      by_contra he
      exact h2 (strHasInfix_mono ⟨[], ['\\'], rfl⟩ (by simpa using he))
    have h2f : strHasInfix ['.', '.'] key = false := by
      by_contra he
      exact h2 (by simpa using he)
    simp [hasEscapeAttempt, containsForbiddenSpec, escapePatterns,
      forbiddenPatternsSpec, h2f, e1, e2]

/-- C2: for every input key `k` and configured namespace `N` ending in a
colon, the namespace guard behaves exactly as the five-step algorithm:
reject empty `k`; reject `k` containing a forbidden pattern (the listed
literals, control characters, runs of three or more dots, whitespace-only
strings); return `k` unchanged when it starts with `N`; reject `k` whose
first `:` occurs at a position greater than 0 with a prefix up to and
including the colon differing from `N`; else return `N ++ k`. -/
theorem C2_guard_five_step (N k : JStr) (hN : N.getLast? = some ':') :
    ensureNamespace (normalizeNs N) k = ensureNamespaceSpec N k := by
  have hnorm : normalizeNs N = N := by simp [normalizeNs, hN]
  rw [hnorm]
  simp only [ensureNamespace, ensureNamespaceSpec, hasWrongNamespace,
    hasEscapeAttempt_eq_spec]

/-- Witness instantiating C2 at a concrete namespace and key. -/
theorem C2_guard_five_step_w :
    ensureNamespace (normalizeNs ((r"app:").toList)) ((r"other:user").toList) =
      ensureNamespaceSpec ((r"app:").toList) ((r"other:user").toList) :=
  C2_guard_five_step ((r"app:").toList) ((r"other:user").toList) (by decide)

theorem ensureNamespace_spec_of_some {ns k fk : JStr}
    (h : ensureNamespace ns k = some fk) :
    ns.isPrefixOf fk = true ∧ fk = (if ns.isPrefixOf k then k else ns ++ k) := by
  unfold ensureNamespace at h
  by_cases h0 : k = []
  · simp [h0] at h
  · by_cases h1 : hasEscapeAttempt k = true
    · simp [h0, h1] at h
    · by_cases h2 : ns.isPrefixOf k = true
      · simp [h0, h1, h2] at h
        subst h
        exact ⟨h2, by simp [h2]⟩
      · by_cases h3 : hasWrongNamespace ns k = true
        · simp [h0, h1, h2, h3] at h
        · simp [h0, h1, h2, h3] at h
          subst h
          refine ⟨?_, by simp [h2]⟩
          rw [List.isPrefixOf_iff_prefix]
          exact List.prefix_append ns k

theorem handleGet_ops_from_guard (conn : Conn) (req : KVRequest) (st : Store) :
    ∀ op ∈ (handleGet conn req st).2.2, ∀ fk ∈ op.opKeys,
      ∃ k, req.params.key = some k ∧
        ensureNamespace (normalizeNs conn.nspace) k = some fk := by
  unfold handleGet
  cases hk : req.params.key with
  | none => simp
  | some key =>
    by_cases hv : validateKey key conn.limits.maxKey = true
    · cases hens : ensureNamespace (normalizeNs conn.nspace) key with
      | none => simp [hv, hens]
      | some fullKey =>
        simp [hv, hens, KVOp.opKeys]
    · simp [hv]

theorem handleSet_ops_from_guard (conn : Conn) (req : KVRequest) (st : Store) :
    ∀ op ∈ (handleSet conn req st).2.2, ∀ fk ∈ op.opKeys,
      ∃ k, req.params.key = some k ∧
        ensureNamespace (normalizeNs conn.nspace) k = some fk := by
  unfold handleSet
  cases hk : req.params.key with
  | none => simp
  | some key =>
    cases hw : req.params.value with
    | none => simp
    | some value =>
      by_cases ht : (match req.params.ttl with
                     | none => true
                     | some t => decide (0 < t)) = true
      · by_cases hv : validateKey key conn.limits.maxKey = true
        · by_cases hvv : validateValue value conn.limits.maxVal = true
          · cases hens : ensureNamespace (normalizeNs conn.nspace) key with
            | none => simp [ht, hv, hvv, hens]
            | some fullKey => simp [ht, hv, hvv, hens, KVOp.opKeys]
          · simp [ht, hv, hvv]
        · simp [ht, hv]
      · simp [ht]

theorem handleDel_ops_from_guard (conn : Conn) (req : KVRequest) (st : Store) :
    ∀ op ∈ (handleDel conn req st).2.2, ∀ fk ∈ op.opKeys,
      ∃ k, req.params.key = some k ∧
        ensureNamespace (normalizeNs conn.nspace) k = some fk := by
  unfold handleDel
  cases hk : req.params.key with
  | none => simp
  | some key =>
    by_cases hv : validateKey key conn.limits.maxKey = true
    · cases hens : ensureNamespace (normalizeNs conn.nspace) key with
      | none => simp [hv, hens]
      | some fullKey => simp [hv, hens, KVOp.opKeys]
    · simp [hv]

theorem handleExists_ops_from_guard (conn : Conn) (req : KVRequest) (st : Store) :
    ∀ op ∈ (handleExists conn req st).2.2, ∀ fk ∈ op.opKeys,
      ∃ k, req.params.key = some k ∧
        ensureNamespace (normalizeNs conn.nspace) k = some fk := by
  unfold handleExists
  cases hk : req.params.key with
  | none => simp
  | some key =>
    by_cases hv : validateKey key conn.limits.maxKey = true
    · cases hens : ensureNamespace (normalizeNs conn.nspace) key with
      | none => simp [hv, hens]
      | some fullKey => simp [hv, hens, KVOp.opKeys]
    · simp [hv]

theorem handleExpire_ops_from_guard (conn : Conn) (req : KVRequest) (st : Store) :
    ∀ op ∈ (handleExpire conn req st).2.2, ∀ fk ∈ op.opKeys,
      ∃ k, req.params.key = some k ∧
        ensureNamespace (normalizeNs conn.nspace) k = some fk := by
  unfold handleExpire
  cases hk : req.params.key with
  | none => simp
  | some key =>
    cases hw : req.params.ttl with
    | none => simp
    | some t =>
      by_cases ht : t ≤ 0
      · simp [ht]
      · by_cases hv : validateKey key conn.limits.maxKey = true
        · cases hens : ensureNamespace (normalizeNs conn.nspace) key with
          | none => simp [ht, hv, hens]
          | some fullKey => simp [ht, hv, hens, KVOp.opKeys]
        · simp [ht, hv]

theorem handleTtl_ops_from_guard (conn : Conn) (req : KVRequest) (st : Store) :
    ∀ op ∈ (handleTtl conn req st).2.2, ∀ fk ∈ op.opKeys,
      ∃ k, req.params.key = some k ∧
        ensureNamespace (normalizeNs conn.nspace) k = some fk := by
  unfold handleTtl
  cases hk : req.params.key with
  | none => simp
  | some key =>
    by_cases hv : validateKey key conn.limits.maxKey = true
    · cases hens : ensureNamespace (normalizeNs conn.nspace) key with
      | none => simp [hv, hens]
      | some fullKey => simp [hv, hens, KVOp.opKeys]
    · simp [hv]

theorem resolveKeys_ok_mem {ns : JStr} {maxKey : Nat} :
    ∀ {ks fks : List JStr}, resolveKeys ns maxKey ks = .ok fks →
      ∀ fk ∈ fks, ∃ k, k ∈ ks ∧ ensureNamespace ns k = some fk := by
  intro ks
  induction ks with
  | nil =>
    intro fks h fk hfk
    simp [resolveKeys] at h
    subst h
    simp at hfk
  | cons k0 t ih =>
    intro fks h fk hfk
    unfold resolveKeys at h
    by_cases hv : validateKey k0 maxKey = true
    · cases hens : ensureNamespace ns k0 with
      | none => simp [hv, hens] at h
      | some fk0 =>
        cases ht : resolveKeys ns maxKey t with
        | error e => simp [hv, hens, ht] at h
        | ok fks0 =>
          simp [hv, hens, ht] at h
          subst h
          rcases List.mem_cons.mp hfk with hfk | hfk
          · exact ⟨k0, List.mem_cons_self k0 t, by rw [hfk]; exact hens⟩
          · obtain ⟨k, hk, he⟩ := ih ht fk hfk
            exact ⟨k, List.mem_cons_of_mem k0 hk, he⟩
    · simp [hv] at h

theorem handleMget_ops_from_guard (conn : Conn) (req : KVRequest) (st : Store) :
    ∀ op ∈ (handleMget conn req st).2.2, ∀ fk ∈ op.opKeys,
      ∃ k, (∃ ks, req.params.keys = some ks ∧ k ∈ ks) ∧
        ensureNamespace (normalizeNs conn.nspace) k = some fk := by
  unfold handleMget
  cases hks : req.params.keys with
  | none => simp
  | some keys =>
    by_cases he : keys.isEmpty = true
    · simp [he]
    · by_cases hc : validateMgetCount keys.length conn.limits.mgetMax = true
      · cases hr : resolveKeys (normalizeNs conn.nspace) conn.limits.maxKey keys with
        | error e => simp [he, hc, hr]
        | ok fullKeys =>
          simp only [he, hc, hr, Bool.not_true, Bool.false_eq_true, if_false,
            Bool.not_false, if_true]
          intro op hop fk hfk
          simp at hop
          subst hop
          simp [KVOp.opKeys] at hfk
          obtain ⟨k, hk, hek⟩ := resolveKeys_ok_mem hr fk hfk
          exact ⟨k, ⟨keys, rfl, hk⟩, hek⟩
      · simp [he, hc]

theorem dispatchMethod_ops_from_guard (nip44 nip04 : Bool) (conn : Conn)
    (req : KVRequest) (st : Store) :
    ∀ op ∈ (dispatchMethod nip44 nip04 conn req st).2.2, ∀ fk ∈ op.opKeys,
      ∃ k, (req.params.key = some k ∨ ∃ ks, req.params.keys = some ks ∧ k ∈ ks) ∧
        ensureNamespace (normalizeNs conn.nspace) k = some fk := by
  unfold dispatchMethod
  split_ifs with h1 h2 h3 h4 h5 h6 h7 h8
  · simp
  · intro op hop fk hfk
    obtain ⟨k, hk, hek⟩ := handleGet_ops_from_guard conn req st op hop fk hfk
    exact ⟨k, .inl hk, hek⟩
  · intro op hop fk hfk
    obtain ⟨k, hk, hek⟩ := handleSet_ops_from_guard conn req st op hop fk hfk
    exact ⟨k, .inl hk, hek⟩
  · intro op hop fk hfk
    obtain ⟨k, hk, hek⟩ := handleDel_ops_from_guard conn req st op hop fk hfk
    exact ⟨k, .inl hk, hek⟩
  · intro op hop fk hfk
    obtain ⟨k, hk, hek⟩ := handleExists_ops_from_guard conn req st op hop fk hfk
    exact ⟨k, .inl hk, hek⟩
  · intro op hop fk hfk
    obtain ⟨k, hk, hek⟩ := handleMget_ops_from_guard conn req st op hop fk hfk
    exact ⟨k, .inr hk, hek⟩
  · intro op hop fk hfk
    obtain ⟨k, hk, hek⟩ := handleExpire_ops_from_guard conn req st op hop fk hfk
    exact ⟨k, .inl hk, hek⟩
  · intro op hop fk hfk
    obtain ⟨k, hk, hek⟩ := handleTtl_ops_from_guard conn req st op hop fk hfk
    exact ⟨k, .inl hk, hek⟩
  · simp

theorem handleRequest_ops_sub (nip44 nip04 : Bool) (respSize : KVResponse → Nat)
    (conn : Conn) (req : KVRequest) (reqSize now : Nat) (s : Sys) :
    ∀ op ∈ (handleRequest nip44 nip04 respSize conn req reqSize now s).ops,
      op ∈ (dispatchMethod nip44 nip04 conn req s.store).2.2 := by
  unfold handleRequest
  cases hlk : (cacheGet s.cache conn.pubkey req.id now).1 with
  | some cached => simp [hlk]
  | none =>
    by_cases hm : req.method ∈ conn.allowedMethods
    · by_cases hr : (checkLimit conn.limits.mps now s.rs).1 = true
      · by_cases hb : (checkBudget conn.limits.bps reqSize now
            (checkLimit conn.limits.mps now s.rs).2).1 = true
        · simp [hlk, hm, hr, hb]
        · simp [hlk, hm, hr, hb]
      · simp [hlk, hm, hr]
    · simp [hlk, hm]

/-- C1: every key a request by connection `c` sends to the backend store
carries `c`'s namespace (which ends in a colon) as a prefix: a request key
already carrying the prefix reaches the backend unchanged, and a bare key
reaches it as the namespace concatenated with the key. -/
theorem C1_backend_keys_namespaced (nip44 nip04 : Bool) (respSize : KVResponse → Nat)
    (conn : Conn) (req : KVRequest) (reqSize now : Nat) (s : Sys)
    (hN : conn.nspace.getLast? = some ':') :
    ∀ op ∈ (handleRequest nip44 nip04 respSize conn req reqSize now s).ops,
      ∀ fk ∈ op.opKeys,
        conn.nspace.isPrefixOf fk = true ∧
        ∃ k, (req.params.key = some k ∨ ∃ ks, req.params.keys = some ks ∧ k ∈ ks) ∧
          fk = (if conn.nspace.isPrefixOf k then k else conn.nspace ++ k) := by
  intro op hop fk hfk
  have hop' := handleRequest_ops_sub nip44 nip04 respSize conn req reqSize now s op hop
  obtain ⟨k, hk, hens⟩ :=
    dispatchMethod_ops_from_guard nip44 nip04 conn req s.store op hop' fk hfk
  have hnorm : normalizeNs conn.nspace = conn.nspace := by simp [normalizeNs, hN]
  rw [hnorm] at hens
  obtain ⟨hpre, heq⟩ := ensureNamespace_spec_of_some hens
  exact ⟨hpre, k, hk, heq⟩

/-- Witness instantiating C1 on a concrete set request whose bare key is
auto-prefixed into the connection's namespace. -/
theorem C1_backend_keys_namespaced_w :
    (connA.nspace.isPrefixOf ((r"app:user").toList) = true ∧
      ∃ k, (((⟨mSet, ⟨some ((r"user").toList), some ((r"SGVsbG8=").toList), none, none⟩,
              (r"r1").toList⟩ : KVRequest)).params.key = some k ∨
            ∃ ks, (⟨mSet, ⟨some ((r"user").toList), some ((r"SGVsbG8=").toList), none, none⟩,
                   (r"r1").toList⟩ : KVRequest).params.keys = some ks ∧ k ∈ ks) ∧
        ((r"app:user").toList : JStr) =
          (if connA.nspace.isPrefixOf k then k else connA.nspace ++ k)) :=
  C1_backend_keys_namespaced true true respSizeTen connA
    ⟨mSet, ⟨some ((r"user").toList), some ((r"SGVsbG8=").toList), none, none⟩,
     (r"r1").toList⟩ 20 1000 Sys.empty (by decide)
    (.set ((r"app:user").toList) ((r"SGVsbG8=").toList) none) (by decide)
    ((r"app:user").toList) (by decide)

theorem checkLimit_snd_bytes (mps now : Nat) (rs : RateState) :
    (checkLimit mps now rs).2.bytes = rs.bytes := by
  by_cases h : mps ≤ (rs.requests.filter (fun t => now - t < 60000)).length <;>
    simp [checkLimit, h]

theorem checkBudget_snd_bytes (bps n now : Nat) (rs : RateState) :
    (checkBudget bps n now rs).2.bytes = rs.bytes.filter (fun r => now - r.1 < 60000) := by
  by_cases h : bps <
      ((rs.bytes.filter (fun r => now - r.1 < 60000)).map (fun r => r.2)).sum + n <;>
    simp [checkBudget, h]

theorem checkBudget_snd_requests (bps n now : Nat) (rs : RateState) :
    (checkBudget bps n now rs).2.requests = rs.requests := by
  by_cases h : bps <
      ((rs.bytes.filter (fun r => now - r.1 < 60000)).map (fun r => r.2)).sum + n <;>
    simp [checkBudget, h]

theorem handleRequest_of_reaches (nip44 nip04 : Bool) (respSize : KVResponse → Nat)
    (conn : Conn) (req : KVRequest) (reqSize now : Nat) (s : Sys)
    (h : reachesDispatch conn req reqSize now s = true) :
    handleRequest nip44 nip04 respSize conn req reqSize now s =
      ⟨(dispatchMethod nip44 nip04 conn req s.store).1,
       ⟨consumeBudget (checkBudget conn.limits.bps reqSize now
            (checkLimit conn.limits.mps now s.rs).2).2
          (respSize (dispatchMethod nip44 nip04 conn req s.store).1) now,
        cachePut (cacheGet s.cache conn.pubkey req.id now).2 conn.pubkey req.id
          (dispatchMethod nip44 nip04 conn req s.store).1 now,
        (dispatchMethod nip44 nip04 conn req s.store).2.1,
        auditLog s.audit
          (mkAuditRec conn req (dispatchMethod nip44 nip04 conn req s.store).1) now⟩,
       (dispatchMethod nip44 nip04 conn req s.store).2.2⟩ := by
  unfold reachesDispatch at h
  simp only [Bool.and_eq_true] at h
  obtain ⟨⟨⟨hlk, hm⟩, hr⟩, hb⟩ := h
  rw [Option.isNone_iff_eq_none] at hlk
  have hm' : req.method ∈ conn.allowedMethods := by simpa using hm
  unfold handleRequest
  simp [hlk, hm', hr, hb]

/-- C3 counterexample: two requests from the same client under the same id
`dup`, both inside one 60-second window, yield different response
payloads, because the first one (rejected RESTRICTED at the allowlist) is
never cached. -/
theorem C3_counterexample : reqDupSet.id = reqDupGet.id ∧ outDup1.resp ≠ outDup2.resp := by
  decide

/-- C3 amended: only responses built at the dispatch stage are cached;
for those, every later request with the same client and id inside the
60-second idempotency window returns the identical response payload and
performs no backend operation. -/
theorem C3_amended_idempotent_replay (nip44 nip04 : Bool) (respSize : KVResponse → Nat)
    (conn : Conn) (req1 req2 : KVRequest) (reqSize1 reqSize2 now1 now2 : Nat) (s : Sys)
    (h1 : reachesDispatch conn req1 reqSize1 now1 s = true)
    (hid : req2.id = req1.id)
    (_hle : now1 ≤ now2) (hwin : now2 - now1 ≤ 60000) :
    (handleRequest nip44 nip04 respSize conn req2 reqSize2 now2
        (handleRequest nip44 nip04 respSize conn req1 reqSize1 now1 s).sys).resp =
      (handleRequest nip44 nip04 respSize conn req1 reqSize1 now1 s).resp ∧
    (handleRequest nip44 nip04 respSize conn req2 reqSize2 now2
        (handleRequest nip44 nip04 respSize conn req1 reqSize1 now1 s).sys).ops = [] := by
  have hcond : ¬ (60000 < now2 - now1) := by omega
  rw [handleRequest_of_reaches nip44 nip04 respSize conn req1 reqSize1 now1 s h1]
  unfold handleRequest
  simp [cacheGet, cachePut, cacheKeyOf, hid, hcond]

/-- Witness instantiating the amended C3: replaying the concrete `get`
request of the duplicate-id scenario one second later returns the cached
payload verbatim. -/
theorem C3_amended_idempotent_replay_w :
    (handleRequest true true respSizeTen connR reqDupGet 10 1001
        (handleRequest true true respSizeTen connR reqDupGet 10 1000 Sys.empty).sys).resp =
      (handleRequest true true respSizeTen connR reqDupGet 10 1000 Sys.empty).resp ∧
    (handleRequest true true respSizeTen connR reqDupGet 10 1001
        (handleRequest true true respSizeTen connR reqDupGet 10 1000 Sys.empty).sys).ops = [] :=
  C3_amended_idempotent_replay true true respSizeTen connR reqDupGet reqDupGet 10 10 1000 1001
    Sys.empty (by decide) rfl (by decide) (by decide)

/-- C4 counterexample: with `bps = 10`, a ten-byte request is accepted and
answered by a ten-byte response — twenty aggregate bytes in the window —
and the window records only the response's ten bytes, never the
request's. -/
theorem C4_counterexample :
    outB.resp.error = none ∧
    connB.limits.bps < reqSizeB + respSizeTen outB.resp ∧
    outB.sys.rs.bytes.map (fun r => r.2) = [10] := by decide

/-- C4 amended: the byte-budget check accepts a request of size n iff the
bytes recorded in the current window plus n is at most `bps`, but only
response bytes are ever recorded against the window (the request's bytes
are checked and then forgotten), so the aggregate request-plus-response
volume of accepted traffic can exceed `bps`. -/
theorem C4_amended_budget_accounting :
    (∀ (bps n now : Nat) (rs : RateState), (checkBudget bps n now rs).1 = true ↔
        ((rs.bytes.filter (fun r => now - r.1 < 60000)).map (fun r => r.2)).sum + n ≤ bps) ∧
    (∀ (nip44 nip04 : Bool) (respSize : KVResponse → Nat) (conn : Conn) (req : KVRequest)
        (reqSize now : Nat) (s : Sys), reachesDispatch conn req reqSize now s = true →
      (handleRequest nip44 nip04 respSize conn req reqSize now s).sys.rs.bytes =
        s.rs.bytes.filter (fun r => now - r.1 < 60000) ++
          [(now, respSize (handleRequest nip44 nip04 respSize conn req reqSize now s).resp)]) := by
  constructor
  · intro bps n now rs
    by_cases h : bps <
        ((rs.bytes.filter (fun r => now - r.1 < 60000)).map (fun r => r.2)).sum + n <;>
      simp [checkBudget, h] <;> omega
  · intro nip44 nip04 respSize conn req reqSize now s h
    rw [handleRequest_of_reaches nip44 nip04 respSize conn req reqSize now s h]
    simp [consumeBudget, checkBudget_snd_bytes, checkLimit_snd_bytes]

/-- Witness instantiating the amended C4 on the concrete ten-byte-budget
run: the check accepts exactly up to the budget and the new window holds
only the response record. -/
theorem C4_amended_budget_accounting_w :
    ((checkBudget 10 7 0 (⟨[], [(0, 2)]⟩ : RateState)).1 = true ↔
      ((((⟨[], [(0, 2)]⟩ : RateState)).bytes.filter
          (fun r => 0 - r.1 < 60000)).map (fun r => r.2)).sum + 7 ≤ 10) ∧
    (handleRequest true true respSizeTen connB reqB reqSizeB 0 Sys.empty).sys.rs.bytes =
      Sys.empty.rs.bytes.filter (fun r => 0 - r.1 < 60000) ++
        [(0, respSizeTen (handleRequest true true respSizeTen connB reqB reqSizeB 0 Sys.empty).resp)] :=
  ⟨C4_amended_budget_accounting.1 10 7 0 ⟨[], [(0, 2)]⟩,
   C4_amended_budget_accounting.2 true true respSizeTen connB reqB reqSizeB 0 Sys.empty
     (by decide)⟩

/-- C5 counterexample: a request whose envelope passed but whose method is
not allowlisted is rejected RESTRICTED and leaves the audit log untouched
— no audit record is emitted for it. -/
theorem C5_counterexample :
    outDup1.resp.error.map (fun e => e.code) = some ECode.RESTRICTED ∧
    outDup1.sys.audit = Sys.empty.audit := by decide

/-- C5 amended: exactly one audit record is appended for each request that
reaches the dispatch stage, whatever its outcome there; requests answered
from the idempotency cache or rejected at the allowlist, rate-limit or
byte-budget stages append none. -/
theorem C5_amended_audit_iff_dispatch (nip44 nip04 : Bool) (respSize : KVResponse → Nat)
    (conn : Conn) (req : KVRequest) (reqSize now : Nat) (s : Sys) :
    (handleRequest nip44 nip04 respSize conn req reqSize now s).sys.audit =
      (if reachesDispatch conn req reqSize now s then
        auditLog s.audit
          (mkAuditRec conn req (handleRequest nip44 nip04 respSize conn req reqSize now s).resp)
          now
      else s.audit) := by
  unfold handleRequest reachesDispatch
  cases hlk : (cacheGet s.cache conn.pubkey req.id now).1 with
  | some cached => simp [hlk]
  | none =>
    by_cases hm : req.method ∈ conn.allowedMethods
    · by_cases hr : (checkLimit conn.limits.mps now s.rs).1 = true
      · by_cases hb : (checkBudget conn.limits.bps reqSize now
            (checkLimit conn.limits.mps now s.rs).2).1 = true
        · simp [hlk, hm, hr, hb]
        · simp [hlk, hm, hr, hb]
      · simp [hlk, hm, hr]
    · simp [hlk, hm]

/-- C6 counterexample: at server second 1000, one event sits far more than
60 seconds in the future and another is far older than five minutes, yet
both are processed and produce a response — the source applies no
`created_at` freshness bound. -/
theorem C6_counterexample :
    (1000 : Int) + 60 < evFuture.created_at ∧
    evOld.created_at + 300 < 1000 ∧
    (handleIncomingEvent true true respSizeTen connA evFuture 10 1000000 Sys.empty).isSome
      = true ∧
    (handleIncomingEvent true true respSizeTen connA evOld 10 1000000 Sys.empty).isSome
      = true := by
  decide

/-- C6 amended: the server performs no `created_at` freshness validation —
an inbound event produces a response iff it carries a signature and its
content decrypts and parses, independently of `created_at` and of the
server clock. -/
theorem C6_amended_no_freshness (nip44 nip04 : Bool) (respSize : KVResponse → Nat)
    (conn : Conn) (ev : NEvent) (reqSize now : Nat) (s : Sys) :
    (handleIncomingEvent nip44 nip04 respSize conn ev reqSize now s).isSome =
      (ev.hasSig && ev.contentPlain.isSome) := by
  unfold handleIncomingEvent
  by_cases hs : ev.hasSig = true
  · cases hp : ev.contentPlain <;> simp [hs, hp]
  · have hs2 : ev.hasSig = false := by simpa using hs
    simp [hs2]

/-- C7 counterexample: the canonical base64 value `UVE9PQ==` is accepted
by set, but get returns `QQ==` — the stored bytes spell a base64-looking
string, which get passes through instead of re-encoding. -/
theorem C7_counterexample :
    validateValue vC7 65536 = true ∧
    kvGet (kvSet [] kC7 vC7 none) kC7 = some ((r"QQ==").toList) ∧
    ((r"QQ==").toList : JStr) ≠ vC7 := by decide

/-- C7 amended: for a canonical base64 value whose decoded bytes are ASCII
and do not themselves read back as a canonical base64 string, a get after
the set (with no intervening delete or expiry) returns exactly the value. -/
theorem C7_amended_roundtrip (st : Store) (k v : JStr) (ttl : Option Int)
    (hcanon : encodeB64 (decodeB64 v) = v)
    (_hascii : ∀ b ∈ decodeB64 v, b < 128)
    (hraw : isBase64Str (bytesToStr (decodeB64 v)) = false) :
    kvGet (kvSet st k v ttl) k = some v := by
  unfold kvGet kvSet storeFind kvGetVal
  simp [hraw, hcanon]

/-- Witness instantiating the amended C7 on the value `SGVsbG8=`. -/
theorem C7_amended_roundtrip_w :
    kvGet (kvSet [] kC7 ((r"SGVsbG8=").toList) none) kC7 =
      some ((r"SGVsbG8=").toList) :=
  C7_amended_roundtrip [] kC7 ((r"SGVsbG8=").toList) none (by decide) (by decide) (by decide)

theorem validateValue_true_iff (v : JStr) (m : Nat) :
    validateValue v m = true ↔ (decodeB64 v).length ≤ m := by
  unfold validateValue
  by_cases he : v.isEmpty = true
  · rw [List.isEmpty_iff] at he
    subst he
    simp [decodeB64, b64Sextets, decodeSextets]
  · by_cases h : m < (decodeB64 v).length <;> simp [he, h] <;> omega

theorem b64Sextets_skip (c : Char) (hc : b64Val c = none) (hne : c ≠ '=') :
    ∀ u w : JStr, b64Sextets (u ++ c :: w) = b64Sextets (u ++ w) := by
  intro u
  induction u with
  | nil =>
    intro w
    simp [b64Sextets, hne, hc]
  | cons d t ih =>
    intro w
    by_cases hd : d = '='
    · simp [b64Sextets, hd]
    · cases hdv : b64Val d <;> simp [b64Sextets, hd, hdv, ih]

theorem decodeB64_skips_invalid (u w : JStr) (c : Char)
    (hc : b64Val c = none) (hne : c ≠ '=') :
    decodeB64 (u ++ c :: w) = decodeB64 (u ++ w) := by
  unfold decodeB64
  rw [b64Sextets_skip c hc hne]

/-- C10: a request that misses the idempotency cache, passes the method
allowlist and is not itself rate-limited appends exactly one timestamp to
the connection's request window, whatever happens afterwards (byte-budget
rejection, invalid key or value, namespace violation, or success). -/
theorem C10_rate_counts_failed (nip44 nip04 : Bool) (respSize : KVResponse → Nat)
    (conn : Conn) (req : KVRequest) (reqSize now : Nat) (s : Sys)
    (h1 : (cacheGet s.cache conn.pubkey req.id now).1 = none)
    (h2 : req.method ∈ conn.allowedMethods)
    (h3 : (s.rs.requests.filter (fun t => now - t < 60000)).length < conn.limits.mps) :
    (handleRequest nip44 nip04 respSize conn req reqSize now s).sys.rs.requests =
      s.rs.requests.filter (fun t => now - t < 60000) ++ [now] := by
  have hcl : checkLimit conn.limits.mps now s.rs =
      (true, ⟨s.rs.requests.filter (fun t => now - t < 60000) ++ [now], s.rs.bytes⟩) := by
    simp [checkLimit, Nat.not_le.mpr h3]
  unfold handleRequest
  by_cases hb : (checkBudget conn.limits.bps reqSize now
      (checkLimit conn.limits.mps now s.rs).2).1 = true <;> rw [hcl] at hb
  · simp [h1, h2, hcl, hb, consumeBudget, checkBudget_snd_requests]
  · simp [h1, h2, hcl, hb, checkBudget_snd_requests]

/-- Witness instantiating C10 on a concrete request that is later rejected
RESTRICTED (escape-attempt key) but still consumes a rate-window slot. -/
theorem C10_rate_counts_failed_w :
    (handleRequest true true respSizeTen connA reqBadKey 10 777 Sys.empty).sys.rs.requests =
      Sys.empty.rs.requests.filter (fun t => 777 - t < 60000) ++ [777] :=
  C10_rate_counts_failed true true respSizeTen connA reqBadKey 10 777 Sys.empty
    (by decide) (by decide) (by decide)

theorem handleSet_invalid_value_iff (conn : Conn) (key v : JStr) (tl : Option Int)
    (rid : JStr) (st : Store)
    (hkey : validateKey key conn.limits.maxKey = true)
    (httl : tl = none ∨ ∃ t, tl = some t ∧ 0 < t) :
    ((handleSet conn ⟨mSet, ⟨some key, some v, tl, none⟩, rid⟩ st).1.error.map
        (fun e => e.code) = some ECode.INVALID_VALUE) ↔
      conn.limits.maxVal < (decodeB64 v).length := by
  have hiff := validateValue_true_iff v conn.limits.maxVal
  cases tl with
  | none =>
    by_cases hvv : validateValue v conn.limits.maxVal = true
    · have hlen := hiff.mp hvv
      cases hens : ensureNamespace (normalizeNs conn.nspace) key <;>
        simp [handleSet, hkey, hvv, hens, errorResponse] <;> omega
    · have hlen : ¬ (decodeB64 v).length ≤ conn.limits.maxVal := fun hc => hvv (hiff.mpr hc)
      simp [handleSet, hkey, hvv, errorResponse]
      omega
  | some t =>
    have ht : 0 < t := by
      rcases httl with h | ⟨t2, h2, ht2⟩
      · exact absurd h (by simp)
      · rw [Option.some_inj] at h2
        subst h2
        exact ht2
    by_cases hvv : validateValue v conn.limits.maxVal = true
    · have hlen := hiff.mp hvv
      cases hens : ensureNamespace (normalizeNs conn.nspace) key <;>
        simp [handleSet, hkey, hvv, hens, errorResponse, ht] <;> omega
    · have hlen : ¬ (decodeB64 v).length ≤ conn.limits.maxVal := fun hc => hvv (hiff.mpr hc)
      simp [handleSet, hkey, hvv, errorResponse, ht]
      omega

/-- C9: for a set request that reaches dispatch with a schema-valid ttl
and a valid key, the INVALID_VALUE error is returned iff the byte length
of the lenient base64 decoding of the value exceeds the connection's
max_val bound; the decoder is total and silently skips characters outside
its table — which also accepts the URL-safe `-` and `_` — while the first
`=` stops decoding (so a malformed value is never rejected for
malformedness alone, only for decoded size), and an empty value is never
rejected INVALID_VALUE. -/
theorem C9_invalid_value_iff (nip44 nip04 : Bool) (respSize : KVResponse → Nat)
    (conn : Conn) (key v : JStr) (tl : Option Int) (rid : JStr) (reqSize now : Nat) (s : Sys)
    (hra : reachesDispatch conn ⟨mSet, ⟨some key, some v, tl, none⟩, rid⟩ reqSize now s = true)
    (hkey : validateKey key conn.limits.maxKey = true)
    (httl : tl = none ∨ ∃ t, tl = some t ∧ 0 < t) :
    (((handleRequest nip44 nip04 respSize conn ⟨mSet, ⟨some key, some v, tl, none⟩, rid⟩
        reqSize now s).resp.error.map (fun e => e.code) = some ECode.INVALID_VALUE) ↔
      conn.limits.maxVal < (decodeB64 v).length) ∧
    (v = [] →
      (handleRequest nip44 nip04 respSize conn ⟨mSet, ⟨some key, some v, tl, none⟩, rid⟩
        reqSize now s).resp.error.map (fun e => e.code) ≠ some ECode.INVALID_VALUE) ∧
    (∀ (u w : JStr) (c : Char), b64Val c = none → c ≠ '=' →
      decodeB64 (u ++ c :: w) = decodeB64 (u ++ w)) := by
  have hmain : ((handleRequest nip44 nip04 respSize conn
      ⟨mSet, ⟨some key, some v, tl, none⟩, rid⟩ reqSize now s).resp.error.map
        (fun e => e.code) = some ECode.INVALID_VALUE) ↔
      conn.limits.maxVal < (decodeB64 v).length := by
    rw [handleRequest_of_reaches nip44 nip04 respSize conn _ reqSize now s hra]
    have hd : dispatchMethod nip44 nip04 conn ⟨mSet, ⟨some key, some v, tl, none⟩, rid⟩
        s.store = handleSet conn ⟨mSet, ⟨some key, some v, tl, none⟩, rid⟩ s.store := by rfl
    show ((dispatchMethod nip44 nip04 conn _ s.store).1.error.map (fun e => e.code) = _) ↔ _
    rw [hd]
    exact handleSet_invalid_value_iff conn key v tl rid s.store hkey httl
  refine ⟨hmain, ?_, fun u w c hc hne => decodeB64_skips_invalid u w c hc hne⟩
  intro hv
  rw [Ne, hmain, hv]
  simp [decodeB64, decodeSextets]

/-- Witness instantiating C9: a five-byte decoded value against a two-byte
bound is rejected INVALID_VALUE. -/
theorem C9_invalid_value_iff_w :
    ((handleRequest true true respSizeTen connV
        ⟨mSet, ⟨some ((r"k1").toList), some ((r"SGVsbG8=").toList), none, none⟩,
         (r"v1").toList⟩ 10 0 Sys.empty).resp.error.map (fun e => e.code) =
      some ECode.INVALID_VALUE) ↔
      connV.limits.maxVal < (decodeB64 ((r"SGVsbG8=").toList)).length :=
  (C9_invalid_value_iff true true respSizeTen connV ((r"k1").toList)
    ((r"SGVsbG8=").toList) none ((r"v1").toList) 10 0 Sys.empty
    (by decide) (by decide) (Or.inl rfl)).1

theorem cacheKeyOf_inj_id {pk id1 id2 : JStr}
    (h : cacheKeyOf pk id1 = cacheKeyOf pk id2) : id1 = id2 := by
  unfold cacheKeyOf at h
  exact List.append_cancel_left h

theorem seq_cache_miss (conn : Conn) (now k : Nat) (s : Sys)
    (hc : ∀ e ∈ s.cache, ∃ j, j < k ∧ e.1 = cacheKeyOf conn.pubkey (List.replicate j 'a')) :
    cacheGet s.cache conn.pubkey (List.replicate k 'a') now = (none, s.cache) := by
  unfold cacheGet
  have hfind : s.cache.find?
      (fun e => e.1 == cacheKeyOf conn.pubkey (List.replicate k 'a')) = none := by
    rw [List.find?_eq_none]
    intro e he
    obtain ⟨j, hj, hkey⟩ := hc e he
    simp only [hkey, beq_iff_eq]
    intro hcontra
    have hrep := cacheKeyOf_inj_id hcontra
    have hlen := congrArg List.length hrep
    simp [List.length_replicate] at hlen
    omega
  simp [hfind]

theorem checkLimit_replicate (mps now k : Nat) (bts : List (Nat × Nat)) (hk : k < mps) :
    checkLimit mps now ⟨List.replicate k now, bts⟩ =
      (true, ⟨List.replicate (k + 1) now, bts⟩) := by
  unfold checkLimit
  have hf : (List.replicate k now).filter (fun t => decide (now - t < 60000)) =
      List.replicate k now := by
    simp [List.filter_replicate]
  simp only [hf]
  rw [if_neg (by simp; omega)]
  rw [← List.replicate_succ' (n := k) (a := now)]

theorem checkBudget_zero_accept (bps now : Nat) (rqs : List Nat)
    (bts : List (Nat × Nat)) (hb : ∀ b ∈ bts, b.2 = 0) :
    checkBudget bps 0 now ⟨rqs, bts⟩ =
      (true, ⟨rqs, bts.filter (fun r => now - r.1 < 60000)⟩) := by
  unfold checkBudget
  have hsum : (((bts.filter (fun r => decide (now - r.1 < 60000))).map
      (fun r => r.2)).sum) = 0 := by
    apply List.sum_eq_zero
    intro x hx
    simp only [List.mem_map] at hx
    obtain ⟨b, hbmem, hbe⟩ := hx
    have hz := hb b (List.mem_of_mem_filter hbmem)
    omega
  simp [hsum]

theorem runSeq_spec (nip44 nip04 : Bool) (conn : Conn) (now : Nat)
    (hm : mGetInfo ∈ conn.allowedMethods) :
    ∀ k, k ≤ conn.limits.mps →
      (runSeq nip44 nip04 conn now k).rs.requests = List.replicate k now ∧
      (∀ e ∈ (runSeq nip44 nip04 conn now k).cache,
        ∃ j, j < k ∧ e.1 = cacheKeyOf conn.pubkey (List.replicate j 'a')) ∧
      (∀ b ∈ (runSeq nip44 nip04 conn now k).rs.bytes, b.2 = 0) ∧
      (∀ j, j < k → (respAt nip44 nip04 conn now j).error = none) := by
  intro k
  induction k with
  | zero =>
    intro _
    refine ⟨rfl, ?_, ?_, ?_⟩ <;> simp [runSeq, Sys.empty]
  | succ k ih =>
    intro hk
    obtain ⟨hreq, hcache, hbytes, hresp⟩ := ih (Nat.le_of_succ_le hk)
    have hklt : k < conn.limits.mps := Nat.lt_of_succ_le hk
    have hmiss := seq_cache_miss conn now k (runSeq nip44 nip04 conn now k) hcache
    have hrs : (runSeq nip44 nip04 conn now k).rs =
        ⟨List.replicate k now, (runSeq nip44 nip04 conn now k).rs.bytes⟩ := by
      rw [← hreq]
    have hcl : checkLimit conn.limits.mps now (runSeq nip44 nip04 conn now k).rs =
        (true, ⟨List.replicate (k + 1) now, (runSeq nip44 nip04 conn now k).rs.bytes⟩) := by
      rw [hrs]
      exact checkLimit_replicate conn.limits.mps now k _ hklt
    have hcb : checkBudget conn.limits.bps 0 now
        (⟨List.replicate (k + 1) now,
          (runSeq nip44 nip04 conn now k).rs.bytes⟩ : RateState) =
        (true, ⟨List.replicate (k + 1) now,
          (runSeq nip44 nip04 conn now k).rs.bytes.filter
            (fun r => now - r.1 < 60000)⟩) :=
      checkBudget_zero_accept conn.limits.bps now _ _ hbytes
    have hra : reachesDispatch conn (reqSeq k) 0 now (runSeq nip44 nip04 conn now k)
        = true := by
      unfold reachesDispatch
      simp [reqSeq, hmiss, hm, hcl, hcb]
    have hout := handleRequest_of_reaches nip44 nip04 respSizeZero conn (reqSeq k) 0 now
      (runSeq nip44 nip04 conn now k) hra
    have hd : dispatchMethod nip44 nip04 conn (reqSeq k)
        (runSeq nip44 nip04 conn now k).store =
        (⟨some (.info conn.allowedMethods conn.nspace conn.limits nip44 nip04), none,
          List.replicate k 'a'⟩, (runSeq nip44 nip04 conn now k).store, []) := rfl
    have hstep : runSeq nip44 nip04 conn now (k + 1) =
        (handleRequest nip44 nip04 respSizeZero conn (reqSeq k) 0 now
          (runSeq nip44 nip04 conn now k)).sys := rfl
    refine ⟨?_, ?_, ?_, ?_⟩
    · rw [hstep, hout]
      simp [reqSeq, hd, hcl, hcb, hmiss, consumeBudget, respSizeZero]
    · rw [hstep, hout]
      simp only [reqSeq, hd, hmiss, cachePut]
      intro e he
      rcases List.mem_cons.mp he with he1 | he1
      · exact ⟨k, Nat.lt_succ_self k, by rw [he1]⟩
      · obtain ⟨j, hj, hkey⟩ := hcache e (List.mem_of_mem_filter he1)
        exact ⟨j, Nat.lt_succ_of_lt hj, hkey⟩
    · rw [hstep, hout]
      simp only [reqSeq, hd, hcl, hcb, hmiss, consumeBudget, respSizeZero]
      intro b hb
      rcases List.mem_append.mp hb with hb1 | hb1
      · exact hbytes b (List.mem_of_mem_filter hb1)
      · simp at hb1
        simp [hb1]
    · intro j hj
      rcases Nat.lt_succ_iff_lt_or_eq.mp hj with hj1 | hj1
      · exact hresp j hj1
      · subst hj1
        show (handleRequest nip44 nip04 respSizeZero conn (reqSeq j) 0 now
          (runSeq nip44 nip04 conn now j)).resp.error = none
        rw [hout]
        simp [hd]

/-- C8: starting from a fresh window, a connection whose allowlist admits
`get_info` has its first `mps` requests (distinct ids, zero byte sizes so
no other check interferes) accepted within one 60-second window, and the
request number `mps + 1` in the same window is rejected with the
RATE_LIMITED error. -/
theorem C8_rate_limit_boundary (nip44 nip04 : Bool) (conn : Conn) (now : Nat)
    (hm : mGetInfo ∈ conn.allowedMethods) :
    (∀ i, i < conn.limits.mps → (respAt nip44 nip04 conn now i).error = none) ∧
    (respAt nip44 nip04 conn now conn.limits.mps).error =
      some ⟨ECode.RATE_LIMITED, msgRate⟩ := by
  obtain ⟨hreq, hcache, _hbytes, hresp⟩ :=
    runSeq_spec nip44 nip04 conn now hm conn.limits.mps (Nat.le_refl _)
  refine ⟨fun i hi => hresp i hi, ?_⟩
  have hmiss := seq_cache_miss conn now conn.limits.mps
    (runSeq nip44 nip04 conn now conn.limits.mps) hcache
  have hrs : (runSeq nip44 nip04 conn now conn.limits.mps).rs =
      ⟨List.replicate conn.limits.mps now,
       (runSeq nip44 nip04 conn now conn.limits.mps).rs.bytes⟩ := by
    rw [← hreq]
  have hcl : (checkLimit conn.limits.mps now
      (runSeq nip44 nip04 conn now conn.limits.mps).rs).1 = false := by
    rw [hrs]
    unfold checkLimit
    have hf : (List.replicate conn.limits.mps now).filter
        (fun t => decide (now - t < 60000)) = List.replicate conn.limits.mps now := by
      simp [List.filter_replicate]
    simp [hf]
  unfold respAt handleRequest
  simp [reqSeq, hmiss, hm, hcl, errorResponse]

/-- Witness instantiating C8 on a connection with `mps = 2`: the first
request succeeds and the third in the same window is RATE_LIMITED. -/
theorem C8_rate_limit_boundary_w :
    (respAt true true connW 0 0).error = none ∧
    (respAt true true connW 0 connW.limits.mps).error =
      some ⟨ECode.RATE_LIMITED, msgRate⟩ :=
  ⟨(C8_rate_limit_boundary true true connW 0 (by decide)).1 0 (by decide),
   (C8_rate_limit_boundary true true connW 0 (by decide)).2⟩

end NostrKV
